import Mathlib

/-!
Shallow embedding of the job-application tracker (package `jobapp` plus the
legacy entry point `jobs_cli.py`), covering the record-management and query
layer: the `applications` table, the repository operations of `jobapp/db.py`,
the target-resolution and field-update logic of `jobapp/cli.py`, and the
duplicated repository functions of `jobs_cli.py`.

Modelling conventions:
  * A store state is the list of rows of the `applications` table together
    with the next AUTOINCREMENT id.
  * `date_applied` is stored by the program as an ISO `YYYY-MM-DD` string and
    only ever compared (ORDER BY) or subtracted via `julianday`.  Valid ISO
    date strings compare lexicographically exactly as their day numbers
    compare numerically, so a row's `date_applied` is embedded as the integer
    julian day number of the stored date (the value of
    `julianday(date_applied)`, which is an integer offset from the epoch
    since a bare date means midnight UTC).
  * `julianday('now')` is the julian day value of the current UTC instant:
    the current date's day number plus the elapsed fraction of the current
    day.  It is passed to the embedded `followups` as an explicit rational
    parameter `now` on the same scale as `date_applied`.
  * SQLite's `LOWER` and default `LIKE` are ASCII case folding
    (`Char.toLower` agrees with both on every character they fold).
  * Printing is embedded as returned report values; `print` statements that
    carry a decision (candidate lists, not-found outcomes) become
    constructors of a report type, and purely cosmetic formatting is dropped.
-/

namespace JobTracker

/-- SQLite `LIKE` compares characters case-insensitively on ASCII letters. -/
def likeCharEq (p c : Char) : Bool := p.toLower = c.toLower

/-- `anySuffix f s` is true when `f` accepts some suffix of `s` (including
`s` itself and the empty suffix). -/
def anySuffix (f : List Char → Bool) : List Char → Bool
  | [] => f []
  | c :: t => f (c :: t) || anySuffix f t

/-- SQLite `LIKE` pattern matching: `%` matches any sequence of characters,
`_` matches exactly one character, anything else matches itself up to ASCII
case. -/
def likeMatch : List Char → List Char → Bool
  | [], s => s.isEmpty
  | '%' :: p, s => anySuffix (likeMatch p) s
  | '_' :: p, s =>
    match s with
    | [] => false
    | _ :: t => likeMatch p t
  | c :: p, s =>
    match s with
    | [] => false
    | d :: t => likeCharEq c d && likeMatch p t

/-- `expr LIKE pat` on strings. -/
def sqlLike (pat s : String) : Bool := likeMatch pat.toList s.toList

/-- `needle` occurs as a contiguous substring of `hay`. -/
def containsSub (needle hay : List Char) : Bool :=
  match hay with
  | [] => needle.isEmpty
  | c :: t => needle.isPrefixOf (c :: t) || containsSub needle t

/-- ASCII lowercasing: SQLite's `LOWER` folds exactly the ASCII letters, and
Python's `str.lower()` agrees with it on ASCII text (every string this
development evaluates concretely is ASCII). -/
def strLower (s : String) : String := ⟨s.data.map Char.toLower⟩

/-- One row of the `applications` table (`jobapp/models.py`, mirrored
field-for-field by the dataclass in `jobs_cli.py`). -/
structure Application where
  id : Nat
  company : String
  role : String
  job_link : Option String
  location : Option String
  date_applied : Int
  source : Option String
  status : String
  last_action : Option String
  priority : Option Int
  notes : Option String
deriving DecidableEq

/-- The persistent store: the rows of `applications` plus the AUTOINCREMENT
counter that supplies the next id. -/
structure Store where
  rows : List Application
  nextId : Nat
deriving DecidableEq

namespace Db

/-- The terminal/inactive statuses excluded by
`status NOT IN ('Rejected', 'Ghosted', 'Withdrawn')`. -/
def isTerminal (st : String) : Bool :=
  st = "Rejected" || st = "Ghosted" || st = "Withdrawn"

/-- The early-stage statuses of `status IN ('Applied', 'Recruiter Screen', 'OA')`. -/
def isEarly (st : String) : Bool :=
  st = "Applied" || st = "Recruiter Screen" || st = "OA"

/-- `ORDER BY date_applied DESC, id DESC` as a ≤-like relation: `a` may come
before `b`. -/
def listOrd (a b : Application) : Prop :=
  b.date_applied < a.date_applied ∨
    (b.date_applied = a.date_applied ∧ b.id ≤ a.id)

instance : DecidableRel listOrd := by
  intro a b
  unfold listOrd
  infer_instance

instance : IsTotal Application listOrd := by
  constructor
  intro a b
  unfold listOrd
  omega

instance : IsTrans Application listOrd := by
  constructor
  intro a b c hab hbc
  unfold listOrd at *
  omega

/-- `ORDER BY date_applied ASC` as a ≤-like relation. -/
def dateAsc (a b : Application) : Prop :=
  a.date_applied ≤ b.date_applied

instance : DecidableRel dateAsc := by
  intro a b
  unfold dateAsc
  infer_instance

instance : IsTotal Application dateAsc := by
  constructor
  intro a b
  unfold dateAsc
  omega

instance : IsTrans Application dateAsc := by
  constructor
  intro a b c hab hbc
  unfold dateAsc at *
  omega

/-- `add_application` (`jobapp/db.py` lines 102-154): INSERT of one row.
`today` stands for `date.today()`, the default for an omitted `date_applied`;
`last_action` is not in the INSERT column list, so it is NULL.  Returns the
new store and `cur.lastrowid`. -/
def add_application (s : Store) (today : Int) (company role : String)
    (job_link location : Option String) (date_applied : Option Int)
    (source : Option String) (status : String) (priority : Option Int)
    (notes : Option String) : Store × Nat :=
  let d := date_applied.getD today
  let row : Application :=
    { id := s.nextId, company := company, role := role, job_link := job_link,
      location := location, date_applied := d, source := source,
      status := status, last_action := none, priority := priority,
      notes := notes }
  ({ rows := s.rows ++ [row], nextId := s.nextId + 1 }, s.nextId)

/-- The WHERE clause built by `list_applications` (`jobapp/db.py` lines
157-192): an optional `company LIKE '%…%'` filter (skipped for `None` or the
empty string, matching Python truthiness), an optional exact `status` filter
(same truthiness), and the active-only status exclusion. -/
def listPred (company status : Option String) (active_only : Bool)
    (a : Application) : Bool :=
  (match company with
   | none => true
   | some c => if c = "" then true else sqlLike ("%" ++ c ++ "%") a.company) &&
  (match status with
   | none => true
   | some st => if st = "" then true else a.status == st) &&
  (!active_only || !isTerminal a.status)

/-- `list_applications` (`jobapp/db.py` lines 157-209): SELECT with the
composed filters, `ORDER BY date_applied DESC, id DESC`. -/
def list_applications (s : Store) (company status : Option String)
    (active_only : Bool) : List Application :=
  List.insertionSort listOrd (s.rows.filter (listPred company status active_only))

/-- The WHERE clause of `search_applications` (`jobapp/db.py` lines 212-238):
the Python-lowercased query is wrapped in `%…%` and LIKE-matched against
`LOWER(company)`, `LOWER(role)` and `LOWER(COALESCE(notes, ''))`. -/
def searchPred (query : String) (a : Application) : Bool :=
  let pat := "%" ++ strLower query ++ "%"
  sqlLike pat (strLower a.company) || sqlLike pat (strLower a.role) ||
    sqlLike pat (strLower (a.notes.getD ""))

/-- `search_applications` (`jobapp/db.py` lines 212-256), ordered like
`list_applications`. -/
def search_applications (s : Store) (query : String) : List Application :=
  List.insertionSort listOrd (s.rows.filter (searchPred query))

/-- `update_status` (`jobapp/db.py` lines 259-288): `UPDATE applications SET
status = ?, last_action = ? WHERE id = ?`.  When `cur.rowcount` is zero the
function prints a not-found message and does not commit (the Bool is `false`
and the store is unchanged); otherwise it commits and reports success. -/
def update_status (s : Store) (app_id : Nat) (status : String)
    (last_action : Option String) : Store × Bool :=
  if s.rows.any (fun a => a.id == app_id) then
    ({ s with rows := s.rows.map (fun a =>
        if a.id = app_id then { a with status := status, last_action := last_action }
        else a) }, true)
  else (s, false)

/-- The WHERE clause of `followups` (`jobapp/db.py` lines 316-339): an
early-stage status and `julianday('now') - julianday(date_applied) > ?`,
with `now` the julian day value of the current UTC instant. -/
def followupPred (now : ℚ) (days : Int) (a : Application) : Bool :=
  isEarly a.status && decide ((days : ℚ) < now - (a.date_applied : ℚ))

/-- `followups` (`jobapp/db.py` lines 316-358): the filtered rows
`ORDER BY date_applied ASC`. -/
def followups (s : Store) (now : ℚ) (days : Int) : List Application :=
  List.insertionSort dateAsc (s.rows.filter (followupPred now days))

/-- Modelled from the spec: `Remove(id)` has no implementation under `src/`
(tests drive a `remove` CLI subcommand, but neither `jobapp/cli.py` nor
`jobapp/db.py` defines one).  Spec §4.2: "deletes the row.  Reports whether a
row was actually deleted (for 'not found' messaging); never fatal on missing
id." -/
def remove_application (s : Store) (app_id : Nat) : Store × Bool :=
  if s.rows.any (fun a => a.id == app_id) then
    ({ s with rows := s.rows.filter (fun a => a.id != app_id) }, true)
  else (s, false)

end Db

namespace Cli

/-- Modelled from the spec: `jobapp/cli.py` imports
`find_applications_by_company` from `jobapp.db` (lines 282-286 and 321-323),
but `jobapp/db.py` under `src/` does not define it.  Spec §4.3: "treat
`target` as a case-insensitive company-name substring query and fetch all
matching rows." -/
def find_applications_by_company (s : Store) (target : String) :
    List Application :=
  s.rows.filter (fun a =>
    containsSub (strLower target).toList (strLower a.company).toList)

/-- The candidate line printed for each match of an ambiguous target
(`jobapp/cli.py` lines 292-296 and 330-334): id, company, role,
date_applied. -/
def candidate (a : Application) : Nat × String × String × Int :=
  (a.id, a.company, a.role, a.date_applied)

/-- What a mutating subcommand of `jobapp/cli.py` reports instead of, or in
addition to, changing the store. -/
inductive CmdReport where
  | noMatch (target : String)
  | ambiguous (candidates : List (Nat × String × String × Int))
  | statusUpdated (id : Nat)
  | idNotFound (id : Nat)
  | fieldsUpdated (id : Nat)
  | noFields
deriving DecidableEq

/-- The optional field arguments of the `update` subcommand (`jobapp/cli.py`
lines 193-201): each is `None` when the flag is absent.  `--priority` is a
bare `type=int` argument — unlike `add`'s, it carries no
`choices=[1, 2, 3]` restriction. -/
structure UpdateFields where
  company : Option String := none
  role : Option String := none
  job_link : Option String := none
  location : Option String := none
  date_applied : Option Int := none
  source : Option String := none
  status : Option String := none
  priority : Option Int := none
  notes : Option String := none
deriving DecidableEq

/-- `if not fields:` — every optional argument was absent
(`jobapp/cli.py` lines 346-369). -/
def fieldsEmpty (f : UpdateFields) : Bool :=
  f.company == none && f.role == none && f.job_link == none &&
    f.location == none && f.date_applied == none && f.source == none &&
    f.status == none && f.priority == none && f.notes == none

/-- The dynamic `UPDATE applications SET col = ?, … WHERE id = ?` built from
the supplied fields (`jobapp/cli.py` lines 377-385), applied to one row:
each supplied column takes the supplied value, each absent column keeps its
prior value. -/
def applyFields (f : UpdateFields) (a : Application) : Application :=
  { a with
    company := f.company.getD a.company,
    role := f.role.getD a.role,
    job_link := match f.job_link with | none => a.job_link | some v => some v,
    location := match f.location with | none => a.location | some v => some v,
    date_applied := f.date_applied.getD a.date_applied,
    source := match f.source with | none => a.source | some v => some v,
    status := f.status.getD a.status,
    priority := match f.priority with | none => a.priority | some v => some v,
    notes := match f.notes with | none => a.notes | some v => some v }

/-- The `update-status` subcommand with a non-integer target
(`jobapp/cli.py` lines 280-309): resolve by company query; zero matches and
ambiguous matches report without mutating; a unique match delegates to
`db.update_status` on the resolved id. -/
def updateStatusByName (s : Store) (target status : String)
    (last_action : Option String) : Store × CmdReport :=
  match find_applications_by_company s target with
  | [] => (s, CmdReport.noMatch target)
  | [a] =>
    let r := Db.update_status s a.id status last_action
    (r.1, if r.2 then CmdReport.statusUpdated a.id else CmdReport.idNotFound a.id)
  | ms => (s, CmdReport.ambiguous (ms.map candidate))

/-- The `update` subcommand with a non-integer target (`jobapp/cli.py` lines
320-385): resolve by company query; zero matches and ambiguous matches
report and return before the field map is examined; a unique match checks
for an empty field map and otherwise runs the dynamic UPDATE on the
resolved id. -/
def updateByName (s : Store) (target : String) (f : UpdateFields) :
    Store × CmdReport :=
  match find_applications_by_company s target with
  | [] => (s, CmdReport.noMatch target)
  | [a] =>
    if fieldsEmpty f then (s, CmdReport.noFields)
    else
      ({ s with rows := s.rows.map (fun r =>
          if r.id = a.id then applyFields f r else r) },
        CmdReport.fieldsUpdated a.id)
  | ms => (s, CmdReport.ambiguous (ms.map candidate))

/-- The `update` subcommand with an integer target (`jobapp/cli.py` lines
310-385): `SELECT * … WHERE id = ?` — a missing id reports and returns; an
empty field map reports and returns; otherwise the dynamic UPDATE runs. -/
def updateCmdById (s : Store) (app_id : Nat) (f : UpdateFields) :
    Store × CmdReport :=
  match s.rows.find? (fun a => a.id == app_id) with
  | none => (s, CmdReport.idNotFound app_id)
  | some _ =>
    if fieldsEmpty f then (s, CmdReport.noFields)
    else
      ({ s with rows := s.rows.map (fun r =>
          if r.id = app_id then applyFields f r else r) },
        CmdReport.fieldsUpdated app_id)

/-- The argparse constraint on `add --priority` (`jobapp/cli.py` lines
119-124): `type=int, choices=[1, 2, 3]`; any other integer is rejected at
parse time, before any storage access. -/
def addPriorityOk : Option Int → Bool
  | none => true
  | some v => v == 1 || v == 2 || v == 3

/-- The `add` subcommand (`jobapp/cli.py` lines 222-235): argparse validates
`--priority` against `choices=[1, 2, 3]` (`none` = parse error, nothing
reaches the store); an absent priority defaults to `2` before the insert. -/
def addCommand (s : Store) (today : Int) (company role : String)
    (job_link location : Option String) (date_applied : Option Int)
    (source : Option String) (status : String) (priority : Option Int)
    (notes : Option String) : Option (Store × Nat) :=
  if addPriorityOk priority then
    some (Db.add_application s today company role job_link location
      date_applied source status (some (priority.getD 2)) notes)
  else none

end Cli

namespace Legacy

/-!
The legacy entry point `jobs_cli.py` carries its own copies of the
repository functions; its `Application` dataclass (lines 36-54) lists the
same eleven fields as `jobapp/models.py`, so the shared `Application` and
`Store` types embed both.  The four duplicated functions are transcribed
below from `jobs_cli.py` itself.
-/

/-- `status NOT IN ('Rejected', 'Ghosted', 'Withdrawn')` in `jobs_cli.py`. -/
def isTerminal (st : String) : Bool :=
  st = "Rejected" || st = "Ghosted" || st = "Withdrawn"

/-- `status IN ('Applied', 'Recruiter Screen', 'OA')` in `jobs_cli.py`. -/
def isEarly (st : String) : Bool :=
  st = "Applied" || st = "Recruiter Screen" || st = "OA"

/-- `add_application` (`jobs_cli.py` lines 122-164). -/
def add_application (s : Store) (today : Int) (company role : String)
    (job_link location : Option String) (date_applied : Option Int)
    (source : Option String) (status : String) (priority : Option Int)
    (notes : Option String) : Store × Nat :=
  let d := date_applied.getD today
  let row : Application :=
    { id := s.nextId, company := company, role := role, job_link := job_link,
      location := location, date_applied := d, source := source,
      status := status, last_action := none, priority := priority,
      notes := notes }
  ({ rows := s.rows ++ [row], nextId := s.nextId + 1 }, s.nextId)

/-- The WHERE clause of `list_applications` (`jobs_cli.py` lines 167-198). -/
def listPred (company status : Option String) (active_only : Bool)
    (a : Application) : Bool :=
  (match company with
   | none => true
   | some c => if c = "" then true else sqlLike ("%" ++ c ++ "%") a.company) &&
  (match status with
   | none => true
   | some st => if st = "" then true else a.status == st) &&
  (!active_only || !isTerminal a.status)

/-- `list_applications` (`jobs_cli.py` lines 167-219). -/
def list_applications (s : Store) (company status : Option String)
    (active_only : Bool) : List Application :=
  List.insertionSort Db.listOrd (s.rows.filter (listPred company status active_only))

/-- `update_status` (`jobs_cli.py` lines 222-251). -/
def update_status (s : Store) (app_id : Nat) (status : String)
    (last_action : Option String) : Store × Bool :=
  if s.rows.any (fun a => a.id == app_id) then
    ({ s with rows := s.rows.map (fun a =>
        if a.id = app_id then { a with status := status, last_action := last_action }
        else a) }, true)
  else (s, false)

/-- The WHERE clause of `followups` (`jobs_cli.py` lines 315-338). -/
def followupPred (now : ℚ) (days : Int) (a : Application) : Bool :=
  isEarly a.status && decide ((days : ℚ) < now - (a.date_applied : ℚ))

/-- `followups` (`jobs_cli.py` lines 315-357). -/
def followups (s : Store) (now : ℚ) (days : Int) : List Application :=
  List.insertionSort Db.dateAsc (s.rows.filter (followupPred now days))

end Legacy

/-!
Concrete fixtures used by the witness and counterexample theorems.
-/

/-- A row mirroring the spec's example data ("Meta", "SWE Intern"). -/
def metaSwe : Application :=
  { id := 1, company := "Meta", role := "SWE Intern", job_link := none,
    location := none, date_applied := 100, source := some "LinkedIn",
    status := "Applied", last_action := none, priority := some 2,
    notes := none }

/-- A second "Meta" row ("ML Intern"), making the target "Meta" ambiguous. -/
def metaMl : Application :=
  { id := 2, company := "Meta", role := "ML Intern", job_link := none,
    location := none, date_applied := 101, source := some "Company Site",
    status := "Applied", last_action := none, priority := some 2,
    notes := none }

/-- A store holding the two "Meta" rows. -/
def metaStore : Store := { rows := [metaSwe, metaMl], nextId := 3 }

/-- The single "Flatiron Institute" row of the test fixtures. -/
def flatironRow : Application :=
  { id := 1, company := "Flatiron Institute", role := "Database Intern",
    job_link := none, location := some "New York, NY", date_applied := 50,
    source := some "Company Site", status := "Applied", last_action := none,
    priority := some 1, notes := none }

/-- A store holding only the Flatiron row. -/
def flatironStore : Store := { rows := [flatironRow], nextId := 2 }

/-- A row whose `date_applied` is day 0, used at the follow-up boundary. -/
def acmeRow : Application :=
  { id := 1, company := "Acme", role := "SWE", job_link := none,
    location := none, date_applied := 0, source := none,
    status := "Applied", last_action := none, priority := some 2,
    notes := none }

/-- A store holding only the Acme row. -/
def acmeStore : Store := { rows := [acmeRow], nextId := 2 }

/-- An update field map supplying only `--priority 7`. -/
def priorityOnly7 : Cli.UpdateFields := { priority := some 7 }

/-- An update field map supplying only `--priority 1`. -/
def priorityOnly1 : Cli.UpdateFields := { priority := some 1 }

/-- An update field map supplying `--role` and `--priority`, as in the
spec's partial-update example. -/
def roleAndPriority : Cli.UpdateFields :=
  { role := some "Senior SWE", priority := some 1 }

/-- C9: For every store state and every combination of company filter, status
filter, and activeOnly flag, List returns its results ordered
most-recently-applied first (descending date_applied), with ties in
date_applied broken by descending id — consecutive results are related by
`listOrd` — and the results are exactly the rows passing the composed
filters. -/
theorem list_applications_ordered (s : Store) (company status : Option String)
    (active_only : Bool) :
    (Db.list_applications s company status active_only).Sorted Db.listOrd ∧
    (Db.list_applications s company status active_only).Perm
      (s.rows.filter (Db.listPred company status active_only)) :=
  ⟨List.sorted_insertionSort Db.listOrd _, List.perm_insertionSort Db.listOrd _⟩

/-- C10: The duplicated repository functions of the legacy entry point
`jobs_cli.py` are observationally equivalent to their namesakes in
`jobapp/db.py`: for every store state and arguments, the two
`list_applications` and the two `followups` return the same sequence, and
the duplicated `add_application` and `update_status` produce the same
resulting store state and result. -/
theorem legacy_matches_jobapp :
    (∀ (s : Store) (company status : Option String) (active_only : Bool),
        Legacy.list_applications s company status active_only =
          Db.list_applications s company status active_only) ∧
    (∀ (s : Store) (now : ℚ) (days : Int),
        Legacy.followups s now days = Db.followups s now days) ∧
    (∀ (s : Store) (today : Int) (company role : String)
        (job_link location : Option String) (date_applied : Option Int)
        (source : Option String) (status : String) (priority : Option Int)
        (notes : Option String),
        Legacy.add_application s today company role job_link location
            date_applied source status priority notes =
          Db.add_application s today company role job_link location
            date_applied source status priority notes) ∧
    (∀ (s : Store) (app_id : Nat) (status : String)
        (last_action : Option String),
        Legacy.update_status s app_id status last_action =
          Db.update_status s app_id status last_action) :=
  ⟨fun _ _ _ _ => rfl, fun _ _ _ => rfl,
    fun _ _ _ _ _ _ _ _ _ _ _ => rfl, fun _ _ _ _ => rfl⟩

/-- C6: UpdateStatus on an id that no row carries reports a not-found
outcome (the Bool is false, matching the printed message) and leaves every
row of the store unchanged; the operation is total, never an error. -/
theorem update_status_missing_id (s : Store) (app_id : Nat) (status : String)
    (last_action : Option String) (h : ∀ a ∈ s.rows, a.id ≠ app_id) :
    Db.update_status s app_id status last_action = (s, false) := by
  have hany : s.rows.any (fun a => a.id == app_id) = false := by
    simp only [List.any_eq_false, beq_iff_eq]
    exact h
  simp [Db.update_status, hany]

/-- Closed instance of `update_status_missing_id`: UpdateStatus(999, …) on a
store without id 999 returns the store unchanged and reports false. -/
theorem update_status_missing_id_witness :
    Db.update_status acmeStore 999 "Rejected" none = (acmeStore, false) :=
  update_status_missing_id acmeStore 999 "Rejected" none (by decide)

/-- C5: Remove on a present id reports deletion and the surviving rows are
exactly the prior rows other than those carrying the id; Remove on an absent
id returns the store unchanged and reports false; the operation is total,
never an error. -/
theorem remove_reports_and_deletes (s : Store) (app_id : Nat) :
    (s.rows.any (fun a => a.id == app_id) = true →
      (Db.remove_application s app_id).2 = true ∧
      ∀ r : Application, r ∈ (Db.remove_application s app_id).1.rows ↔
        r ∈ s.rows ∧ r.id ≠ app_id) ∧
    (s.rows.any (fun a => a.id == app_id) = false →
      Db.remove_application s app_id = (s, false)) := by
  constructor
  · intro h
    refine ⟨by simp [Db.remove_application, h], fun r => ?_⟩
    simp [Db.remove_application, h, List.mem_filter]
  · intro h
    simp [Db.remove_application, h]

/-- Closed instance of `remove_reports_and_deletes` at both a present and an
absent id. -/
theorem remove_reports_and_deletes_witness :
    ((Db.remove_application acmeStore 1).2 = true ∧
      ∀ r : Application, r ∈ (Db.remove_application acmeStore 1).1.rows ↔
        r ∈ acmeStore.rows ∧ r.id ≠ 1) ∧
    Db.remove_application acmeStore 999 = (acmeStore, false) :=
  ⟨(remove_reports_and_deletes acmeStore 1).1 (by decide),
    (remove_reports_and_deletes acmeStore 999).2 (by decide)⟩

/-- C2 (amended): Followups(days) returns exactly the applications whose
status is early-stage and whose fractional julian-day age — the current UTC
instant minus midnight of date_applied, as computed by
`julianday('now') - julianday(date_applied)` — strictly exceeds days,
ordered by ascending date_applied. -/
theorem followups_characterization (s : Store) (now : ℚ) (days : Int) :
    (∀ a : Application, a ∈ Db.followups s now days ↔
      a ∈ s.rows ∧ Db.isEarly a.status = true ∧
        (days : ℚ) < now - (a.date_applied : ℚ)) ∧
    (Db.followups s now days).Sorted Db.dateAsc ∧
    (Db.followups s now days).Perm
      (s.rows.filter (Db.followupPred now days)) := by
  refine ⟨fun a => ?_, List.sorted_insertionSort Db.dateAsc _,
    List.perm_insertionSort Db.dateAsc _⟩
  simp [Db.followups, Db.followupPred, List.mem_filter, and_assoc]

/-- C2 is false as the spec states it: with days = 7 and the current instant
half a day past UTC midnight (now = 7 + 1/2 on the day scale, so the current
date is day 7 and the Acme row's date_applied, day 0, is exactly 7 days
before it), followups still returns the row, although the whole-day
strictly-greater-than rule would exclude it. -/
theorem followups_boundary_counterexample :
    Db.followups acmeStore (7 + 1/2) 7 = [acmeRow] ∧
    acmeRow.date_applied = 0 ∧ (7 : ℚ) ≤ 7 + 1/2 ∧ (7 + 1/2 : ℚ) < 8 := by
  refine ⟨?_, rfl, by norm_num, by norm_num⟩
  simp only [Db.followups, Db.followupPred, Db.isEarly, acmeStore, acmeRow,
    List.filter, List.insertionSort]
  norm_num

/-- C8 fails on the code at queries containing LIKE metacharacters: the
query "f%n" is not a substring of the lowercased company, role, or notes of
the Flatiron row, yet search returns the row, because the query is
interpolated unescaped into the LIKE pattern and % matches any character
sequence. -/
theorem search_wildcard_failing_input :
    Db.search_applications flatironStore "f%n" = [flatironRow] ∧
    containsSub (strLower "f%n").toList
      (strLower flatironRow.company).toList = false ∧
    containsSub (strLower "f%n").toList
      (strLower flatironRow.role).toList = false ∧
    containsSub (strLower "f%n").toList
      (strLower (flatironRow.notes.getD "")).toList = false := by
  decide

/-- C4 fails on the code: the `update` subcommand's `--priority` argument
has no choices restriction (unlike `add`'s, which rejects 7), so
`update 1 --priority 7` silently stores the out-of-range priority 7 and
reports a successful field update. -/
theorem update_priority_unvalidated_failing_input :
    ((Cli.updateCmdById acmeStore 1 priorityOnly7).1.rows.map
        Application.priority = [some 7]) ∧
    (Cli.updateCmdById acmeStore 1 priorityOnly7).2 =
      Cli.CmdReport.fieldsUpdated 1 ∧
    Cli.addPriorityOk (some 7) = false := by
  decide

/-- C1: when a non-numeric target matches more than one stored company, both
mutating subcommands return the store exactly as it was — no row's fields
change — and report every matching candidate's id, company, role, and
date_applied. -/
theorem ambiguous_target_mutates_nothing (s : Store) (target status : String)
    (last_action : Option String) (f : Cli.UpdateFields)
    (h : 2 ≤ (Cli.find_applications_by_company s target).length) :
    Cli.updateStatusByName s target status last_action =
      (s, Cli.CmdReport.ambiguous
        ((Cli.find_applications_by_company s target).map Cli.candidate)) ∧
    Cli.updateByName s target f =
      (s, Cli.CmdReport.ambiguous
        ((Cli.find_applications_by_company s target).map Cli.candidate)) := by
  rcases hm : Cli.find_applications_by_company s target with _ | ⟨a, _ | ⟨b, t⟩⟩
  · rw [hm] at h
    simp at h
  · rw [hm] at h
    simp at h
  · constructor
    · simp [Cli.updateStatusByName, hm]
    · simp [Cli.updateByName, hm]

/-- Closed instance of `ambiguous_target_mutates_nothing`: the two "Meta"
rows make the target "Meta" ambiguous for both mutating commands. -/
theorem ambiguous_target_mutates_nothing_witness :
    Cli.updateStatusByName metaStore "Meta" "Rejected" none =
      (metaStore, Cli.CmdReport.ambiguous
        ((Cli.find_applications_by_company metaStore "Meta").map
          Cli.candidate)) ∧
    Cli.updateByName metaStore "Meta" priorityOnly1 =
      (metaStore, Cli.CmdReport.ambiguous
        ((Cli.find_applications_by_company metaStore "Meta").map
          Cli.candidate)) :=
  ambiguous_target_mutates_nothing metaStore "Meta" "Rejected" none
    priorityOnly1 (by decide)

/-- C1 sanity instance: the reported candidates at the "Meta" witness are
the two Meta rows with their id, company, role, and date_applied. -/
theorem meta_candidates_eval :
    (Cli.find_applications_by_company metaStore "Meta").map Cli.candidate =
      [(1, "Meta", "SWE Intern", 100), (2, "Meta", "ML Intern", 101)] := by
  decide

/-- C3: when a non-numeric target matches exactly one stored application,
the requested mutation is applied to that application's row: update-status
rewrites its status and last_action, and update (with a non-empty field map)
applies the supplied fields, while every other row is untouched. -/
theorem unique_match_applies_mutation (s : Store) (target status : String)
    (last_action : Option String) (f : Cli.UpdateFields) (a : Application)
    (h : Cli.find_applications_by_company s target = [a])
    (hf : Cli.fieldsEmpty f = false) :
    Cli.updateStatusByName s target status last_action =
      ({ s with rows := s.rows.map (fun r =>
          if r.id = a.id then
            { r with status := status, last_action := last_action }
          else r) }, Cli.CmdReport.statusUpdated a.id) ∧
    Cli.updateByName s target f =
      ({ s with rows := s.rows.map (fun r =>
          if r.id = a.id then Cli.applyFields f r else r) },
        Cli.CmdReport.fieldsUpdated a.id) := by
  have ha : a ∈ s.rows := by
    have hmem : a ∈ Cli.find_applications_by_company s target := by
      rw [h]
      exact List.mem_singleton_self a
    exact (List.mem_filter.mp hmem).1
  have hany : s.rows.any (fun r => r.id == a.id) = true :=
    List.any_eq_true.mpr ⟨a, ha, by simp⟩
  constructor
  · simp [Cli.updateStatusByName, h, Db.update_status, hany]
  · simp [Cli.updateByName, h, hf]

/-- Closed instance of `unique_match_applies_mutation` at the unique
Flatiron match. -/
theorem unique_match_applies_mutation_witness :
    Cli.updateStatusByName flatironStore "Flatiron" "Rejected" none =
      ({ flatironStore with rows := flatironStore.rows.map (fun r =>
          if r.id = flatironRow.id then
            { r with status := "Rejected", last_action := none }
          else r) }, Cli.CmdReport.statusUpdated flatironRow.id) ∧
    Cli.updateByName flatironStore "Flatiron" priorityOnly1 =
      ({ flatironStore with rows := flatironStore.rows.map (fun r =>
          if r.id = flatironRow.id then Cli.applyFields priorityOnly1 r
          else r) }, Cli.CmdReport.fieldsUpdated flatironRow.id) :=
  unique_match_applies_mutation flatironStore "Flatiron" "Rejected" none
    priorityOnly1 flatironRow (by decide) (by decide)

/-- C7: the general field update on a targeted row applies exactly the
supplied fields: an empty field map is rejected with the store unchanged;
a non-empty one rewrites only the rows carrying the target id; rows with any
other id map to themselves; and on the targeted row every supplied column
takes the supplied value, every absent column and the id keep their prior
values. -/
theorem update_partial_frame (s : Store) (app_id : Nat)
    (f : Cli.UpdateFields) (r : Application) (hr : r ∈ s.rows)
    (hid : r.id = app_id) :
    (Cli.fieldsEmpty f = true →
      Cli.updateCmdById s app_id f = (s, Cli.CmdReport.noFields)) ∧
    (Cli.fieldsEmpty f = false →
      (Cli.updateCmdById s app_id f).1.rows =
        s.rows.map (fun x => if x.id = app_id then Cli.applyFields f x else x)) ∧
    (∀ x : Application, x.id ≠ app_id →
      (if x.id = app_id then Cli.applyFields f x else x) = x) ∧
    (Cli.applyFields f r).id = r.id ∧
    (f.company = none → (Cli.applyFields f r).company = r.company) ∧
    (∀ v, f.company = some v → (Cli.applyFields f r).company = v) ∧
    (f.role = none → (Cli.applyFields f r).role = r.role) ∧
    (∀ v, f.role = some v → (Cli.applyFields f r).role = v) ∧
    (f.job_link = none → (Cli.applyFields f r).job_link = r.job_link) ∧
    (∀ v, f.job_link = some v → (Cli.applyFields f r).job_link = some v) ∧
    (f.location = none → (Cli.applyFields f r).location = r.location) ∧
    (∀ v, f.location = some v → (Cli.applyFields f r).location = some v) ∧
    (f.date_applied = none →
      (Cli.applyFields f r).date_applied = r.date_applied) ∧
    (∀ v, f.date_applied = some v → (Cli.applyFields f r).date_applied = v) ∧
    (f.source = none → (Cli.applyFields f r).source = r.source) ∧
    (∀ v, f.source = some v → (Cli.applyFields f r).source = some v) ∧
    (f.status = none → (Cli.applyFields f r).status = r.status) ∧
    (∀ v, f.status = some v → (Cli.applyFields f r).status = v) ∧
    (f.priority = none → (Cli.applyFields f r).priority = r.priority) ∧
    (∀ v, f.priority = some v → (Cli.applyFields f r).priority = some v) ∧
    (f.notes = none → (Cli.applyFields f r).notes = r.notes) ∧
    (∀ v, f.notes = some v → (Cli.applyFields f r).notes = some v) := by
  have hfind : ∃ w, s.rows.find? (fun a => a.id == app_id) = some w := by
    rcases hf : s.rows.find? (fun a => a.id == app_id) with _ | w
    · exfalso
      have := List.find?_eq_none.mp hf r hr
      simp [hid] at this
    · exact ⟨w, hf⟩
  rcases hfind with ⟨w, hw⟩
  refine ⟨fun he => ?_, fun he => ?_, fun x hx => if_neg hx, rfl, ?_⟩
  · simp [Cli.updateCmdById, hw, he]
  · simp [Cli.updateCmdById, hw, he]
  refine ⟨fun hc => by simp [Cli.applyFields, hc],
    fun v hc => by simp [Cli.applyFields, hc],
    fun hc => by simp [Cli.applyFields, hc],
    fun v hc => by simp [Cli.applyFields, hc],
    fun hc => by simp [Cli.applyFields, hc],
    fun v hc => by simp [Cli.applyFields, hc],
    fun hc => by simp [Cli.applyFields, hc],
    fun v hc => by simp [Cli.applyFields, hc],
    fun hc => by simp [Cli.applyFields, hc],
    fun v hc => by simp [Cli.applyFields, hc],
    fun hc => by simp [Cli.applyFields, hc],
    fun v hc => by simp [Cli.applyFields, hc],
    fun hc => by simp [Cli.applyFields, hc],
    fun v hc => by simp [Cli.applyFields, hc],
    fun hc => by simp [Cli.applyFields, hc],
    fun v hc => by simp [Cli.applyFields, hc],
    fun hc => by simp [Cli.applyFields, hc],
    fun v hc => by simp [Cli.applyFields, hc]⟩

/-- Closed instance of `update_partial_frame`: updating only role and
priority on the Flatiron row. -/
theorem update_partial_frame_witness :
    (Cli.fieldsEmpty roleAndPriority = true →
      Cli.updateCmdById flatironStore 1 roleAndPriority =
        (flatironStore, Cli.CmdReport.noFields)) ∧
    (Cli.fieldsEmpty roleAndPriority = false →
      (Cli.updateCmdById flatironStore 1 roleAndPriority).1.rows =
        flatironStore.rows.map (fun x =>
          if x.id = 1 then Cli.applyFields roleAndPriority x else x)) ∧
    (∀ x : Application, x.id ≠ 1 →
      (if x.id = 1 then Cli.applyFields roleAndPriority x else x) = x) ∧
    (Cli.applyFields roleAndPriority flatironRow).id = flatironRow.id ∧
    (roleAndPriority.company = none →
      (Cli.applyFields roleAndPriority flatironRow).company =
        flatironRow.company) ∧
    (∀ v, roleAndPriority.company = some v →
      (Cli.applyFields roleAndPriority flatironRow).company = v) ∧
    (roleAndPriority.role = none →
      (Cli.applyFields roleAndPriority flatironRow).role = flatironRow.role) ∧
    (∀ v, roleAndPriority.role = some v →
      (Cli.applyFields roleAndPriority flatironRow).role = v) ∧
    (roleAndPriority.job_link = none →
      (Cli.applyFields roleAndPriority flatironRow).job_link =
        flatironRow.job_link) ∧
    (∀ v, roleAndPriority.job_link = some v →
      (Cli.applyFields roleAndPriority flatironRow).job_link = some v) ∧
    (roleAndPriority.location = none →
      (Cli.applyFields roleAndPriority flatironRow).location =
        flatironRow.location) ∧
    (∀ v, roleAndPriority.location = some v →
      (Cli.applyFields roleAndPriority flatironRow).location = some v) ∧
    (roleAndPriority.date_applied = none →
      (Cli.applyFields roleAndPriority flatironRow).date_applied =
        flatironRow.date_applied) ∧
    (∀ v, roleAndPriority.date_applied = some v →
      (Cli.applyFields roleAndPriority flatironRow).date_applied = v) ∧
    (roleAndPriority.source = none →
      (Cli.applyFields roleAndPriority flatironRow).source =
        flatironRow.source) ∧
    (∀ v, roleAndPriority.source = some v →
      (Cli.applyFields roleAndPriority flatironRow).source = some v) ∧
    (roleAndPriority.status = none →
      (Cli.applyFields roleAndPriority flatironRow).status =
        flatironRow.status) ∧
    (∀ v, roleAndPriority.status = some v →
      (Cli.applyFields roleAndPriority flatironRow).status = v) ∧
    (roleAndPriority.priority = none →
      (Cli.applyFields roleAndPriority flatironRow).priority =
        flatironRow.priority) ∧
    (∀ v, roleAndPriority.priority = some v →
      (Cli.applyFields roleAndPriority flatironRow).priority = some v) ∧
    (roleAndPriority.notes = none →
      (Cli.applyFields roleAndPriority flatironRow).notes =
        flatironRow.notes) ∧
    (∀ v, roleAndPriority.notes = some v →
      (Cli.applyFields roleAndPriority flatironRow).notes = some v) :=
  update_partial_frame flatironStore 1 roleAndPriority flatironRow
    (by decide) (by decide)

end JobTracker
